import Mathlib

/-!
Verification development for the queue-sim coordination layer.

The TypeScript sources are shallowly embedded as pure Lean functions and
explicit transition systems:
  * `Matchmaker` models `src/index.ts` (the locked matchmaker: constants,
    `pickReadyPlayers`, `createMatch`, the inner loop iteration, the
    matchmaker lock), together with the older `pickReadyPlayers` variant
    that appears later in the same file (`pickReadyPlayersOld`).
  * `Gateway` models `src/gateway/server.ts` player-record writes
    (`setPlayerState`, the `close` handler write).
  * `Runner` models `src/session/runner.ts` (`updateAvailability`,
    the finish-lock protocol of `processActiveGames`/`finishGame`).
  * `Autoscaler` models the Proxmox autoscaler (`scaleUp`, `scaleDown`,
    `reconcileSessions`, `checkAndScale`).

Redis hashes are embedded as association lists or records of optional
fields, Redis lists as `List String` (head = LPOP side, tail = RPUSH
side), sets as `List String` without duplicates, and the sorted-set
`sessions:available` as explicit membership plus score.  Machine numbers
are `Nat`/`Int` (all the arithmetic involved is small-integer exact).
-/

namespace Matchmaker

/-- `BATCH_SIZE` from src/index.ts: players per game. -/
def BATCH_SIZE : Nat := 100

/-- `MAX_PULL` from src/index.ts: how many queue entries the matchmaker is
willing to inspect to find `BATCH_SIZE` valid READY players. -/
def MAX_PULL : Nat := 400

/-- Player-state lookup: `redis.hget("player:" ++ id, "state")`.
`none` models a missing player record. -/
abbrev StateLookup := String → Option String

/-- One pass of the candidate-classification loop of the first
`pickReadyPlayers` (src/index.ts lines 117-130): each candidate that is
still READY goes to `picked` until `picked` holds `BATCH_SIZE` entries,
surplus READY candidates go to `toReturn`, stale entries are discarded. -/
def classifyCandidates (stateOf : StateLookup) :
    List String → List String → List String → List String × List String
  | [], picked, toReturn => (picked, toReturn)
  | id :: rest, picked, toReturn =>
    if stateOf id = some "READY" then
      if picked.length < BATCH_SIZE then
        classifyCandidates stateOf rest (picked ++ [id]) toReturn
      else
        classifyCandidates stateOf rest picked (toReturn ++ [id])
    else
      classifyCandidates stateOf rest picked toReturn

/-- The `while` loop of the first `pickReadyPlayers` (src/index.ts lines
95-131).  State: the remaining queue, `picked`, `toReturn`, `inspected`.
Returns (queue left in the store, picked, toReturn).  `fuel` bounds the
recursion; every iteration pops at least one entry, so any `fuel`
exceeding `MAX_PULL` makes the bound inert. -/
def pickLoop (stateOf : StateLookup) :
    Nat → List String → List String → List String → Nat →
    List String × List String × List String
  | 0, queue, picked, toReturn, _ => (queue, picked, toReturn)
  | fuel + 1, queue, picked, toReturn, inspected =>
    if picked.length < BATCH_SIZE ∧ inspected < MAX_PULL then
      let toPull := min ((BATCH_SIZE - picked.length) * 2) (MAX_PULL - inspected)
      let candidates := queue.take toPull
      let rest := queue.drop toPull
      if candidates.length = 0 then (queue, picked, toReturn)
      else
        let pr := classifyCandidates stateOf candidates picked toReturn
        pickLoop stateOf fuel rest pr.1 pr.2 (inspected + candidates.length)
    else (queue, picked, toReturn)

/-- The first `pickReadyPlayers` (src/index.ts lines 90-145), as a pure
function of the player-state lookup and the `queue:ready` list.  Returns
(result, queue left behind).  After the loop, leftover READY candidates
(`toReturn`) are pushed back to the tail; if fewer than `BATCH_SIZE`
players were picked, the partial `picked` list is pushed back to the tail
as well and the result is empty. -/
def pickReadyPlayers (stateOf : StateLookup) (queue : List String) :
    List String × List String :=
  let r := pickLoop stateOf (MAX_PULL + 1) queue [] [] 0
  let queueAfterReturn := if r.2.2.length > 0 then r.1 ++ r.2.2 else r.1
  if 0 < r.2.1.length ∧ r.2.1.length < BATCH_SIZE then
    ([], queueAfterReturn ++ r.2.1)
  else
    (r.2.1, queueAfterReturn)

/-- The candidate loop of the second `pickReadyPlayers` variant
(src/index.ts lines 358-367): READY candidates are pushed and the loop
`break`s as soon as `picked` reaches `BATCH_SIZE`, discarding the
remaining popped candidates. -/
def classifyCandidatesOld (stateOf : StateLookup) :
    List String → List String → List String
  | [], picked => picked
  | id :: rest, picked =>
    if stateOf id = some "READY" then
      if (picked ++ [id]).length ≥ BATCH_SIZE then picked ++ [id]
      else classifyCandidatesOld stateOf rest (picked ++ [id])
    else
      classifyCandidatesOld stateOf rest picked

/-- The `while` loop of the second `pickReadyPlayers` variant
(src/index.ts lines 337-368). -/
def pickLoopOld (stateOf : StateLookup) :
    Nat → List String → List String → Nat → List String × List String
  | 0, queue, picked, _ => (queue, picked)
  | fuel + 1, queue, picked, inspected =>
    if picked.length < BATCH_SIZE ∧ inspected < MAX_PULL then
      let toPull := min ((BATCH_SIZE - picked.length) * 2) (MAX_PULL - inspected)
      let candidates := queue.take toPull
      let rest := queue.drop toPull
      if candidates.length = 0 then (queue, picked)
      else
        let picked' := classifyCandidatesOld stateOf candidates picked
        pickLoopOld stateOf fuel rest picked' (inspected + candidates.length)
    else (queue, picked)

/-- The second `pickReadyPlayers` variant (src/index.ts lines 333-377):
no `toReturn` accumulator; only a partial batch is pushed back. -/
def pickReadyPlayersOld (stateOf : StateLookup) (queue : List String) :
    List String × List String :=
  let r := pickLoopOld stateOf (MAX_PULL + 1) queue [] 0
  if 0 < r.2.length ∧ r.2.length < BATCH_SIZE then
    ([], r.1 ++ r.2)
  else
    (r.2, r.1)

/-- Number of entries of `queue` whose player state is READY. -/
def readyCount (stateOf : StateLookup) (queue : List String) : Nat :=
  (queue.filter (fun id => stateOf id = some "READY")).length

/-- The `player:{id}` hash fields written by the matchmaker. -/
structure PlayerHash where
  state : String
  gameId : String
  sessionId : String
  heartbeatAt : Nat
deriving DecidableEq, Repr

/-- The `session:{id}` hash fields used by the single-slot matchmaker
(`state`, `game_id`, `updated_at`). -/
structure SessionHash where
  state : String
  gameId : String
  updatedAt : Nat
deriving DecidableEq, Repr

/-- The `game:{id}` hash together with the `game:{id}:players` set. -/
structure GameRec where
  sessionId : String
  state : String
  startedAt : Nat
  endAt : Nat
  players : List String
deriving DecidableEq, Repr

/-- The slice of the coordination store touched by the matchmaker loop. -/
structure MStore where
  queueReady : List String
  players : List (String × PlayerHash)
  sessionsIdle : List String
  sessions : List (String × SessionHash)
  games : List (String × GameRec)
  matchFoundEvents : List (String × String × List String)
deriving DecidableEq, Repr

/-- Association-list upsert used to model `redis.hset` on a whole hash. -/
def upsert (l : List (String × α)) (k : String) (v : α) : List (String × α) :=
  if (l.lookup k).isSome then l.map (fun p => if p.1 = k then (k, v) else p)
  else l ++ [(k, v)]

/-- The player-state lookup that `pickReadyPlayers` performs against this
store (`hget player:{id} state`). -/
def storeStateOf (s : MStore) : StateLookup :=
  fun id => (s.players.lookup id).map (·.state)

/-- `releaseSessionBackToIdle` (src/index.ts lines 80-88): reset the
session hash to IDLE with a cleared game id and put the ID back into the
`sessions:idle` set (`sadd` is a no-op on a present member). -/
def releaseSessionBackToIdle (s : MStore) (sessionId : String) (now : Nat) : MStore :=
  let s := { s with
    sessions := upsert s.sessions sessionId ⟨"IDLE", "", now⟩ }
  if sessionId ∈ s.sessionsIdle then s
  else { s with sessionsIdle := s.sessionsIdle ++ [sessionId] }

/-- The pipelined write group of `createMatch` (src/index.ts lines
155-181): create the game hash and its player set, move every picked
player to IN_GAME, and mark the session BUSY. -/
def createMatchWrites (s : MStore) (sessionId gameId : String)
    (durationMs now : Nat) (playerIds : List String) : MStore :=
  let endAt := now + durationMs
  let s := { s with
    games := upsert s.games gameId ⟨sessionId, "RUNNING", now, endAt, playerIds⟩ }
  let s := playerIds.foldl
    (fun acc pid =>
      { acc with players := upsert acc.players pid ⟨"IN_GAME", gameId, sessionId, now⟩ })
    s
  { s with sessions := upsert s.sessions sessionId ⟨"BUSY", gameId, now⟩ }

/-- The `events:match_found` publish that follows the write group. -/
def publishMatchFound (s : MStore) (gameId sessionId : String)
    (playerIds : List String) : MStore :=
  { s with matchFoundEvents := s.matchFoundEvents ++ [(gameId, sessionId, playerIds)] }

/-- One body of the inner `for` loop of the locked matchmaker
(src/index.ts lines 240-256), starting right after a successful
reservation of `sessionId`.  `gameId`, `durationMs` and `now` stand for
the fresh UUID, the randomized duration and the wall clock.
`publishThrows` injects the one store failure point that lies after the
pipelined write group (the `events:match_found` publish); when it fires,
the `catch` block releases the reserved session.  Returns the store plus
the created game id, if a match was completed. -/
def innerIteration (s : MStore) (sessionId gameId : String)
    (durationMs now : Nat) (publishThrows : Bool) : MStore × Option String :=
  let r := pickReadyPlayers (storeStateOf s) s.queueReady
  let s1 := { s with queueReady := r.2 }
  if r.1.length ≠ BATCH_SIZE then
    (releaseSessionBackToIdle s1 sessionId now, none)
  else
    let s2 := createMatchWrites s1 sessionId gameId durationMs now r.1
    if publishThrows then
      (releaseSessionBackToIdle s2 sessionId now, none)
    else
      (publishMatchFound s2 gameId sessionId r.1, some gameId)

/-- `acquireMatchmakerLock` (src/index.ts lines 200-203): `SET key pid PX
ttl NX` over the current lock value; returns the new lock value and
whether the caller acquired it. -/
def acquireMatchmakerLock (pid : String) (lock : Option String) :
    Option String × Bool :=
  match lock with
  | none => (some pid, true)
  | some v => (some v, false)

/-- `releaseMatchmakerLock` (src/index.ts lines 205-207): an unconditional
`DEL lock:matchmaker`, with no comparison of the stored value against the
caller. -/
def releaseMatchmakerLock (_lock : Option String) : Option String :=
  none

/-- A concrete store: one hundred queued READY players and one reserved
session, as left by a successful `reserveIdleSession`. -/
def demoStore : MStore :=
  { queueReady := (List.range 100).map (fun n => toString n),
    players := (List.range 100).map (fun n => (toString n, ⟨"READY", "", "", 0⟩)),
    sessionsIdle := [],
    sessions := [("s1", ⟨"RESERVED", "", 0⟩)],
    games := [],
    matchFoundEvents := [] }

/-- A concrete store with only two READY players queued: batch collection
falls short of `BATCH_SIZE`. -/
def demoShortStore : MStore :=
  { queueReady := ["a", "b"],
    players := [("a", ⟨"READY", "", "", 0⟩), ("b", ⟨"READY", "", "", 0⟩)],
    sessionsIdle := [],
    sessions := [("s1", ⟨"RESERVED", "", 0⟩)],
    games := [],
    matchFoundEvents := [] }

end Matchmaker

namespace Gateway

/-- The `player:{id}` hash as the gateway reads and writes it.  `hset`
merges fields, so absent fields stay absent. -/
structure PlayerHash where
  state : Option String := none
  heartbeatAt : Option Nat := none
deriving DecidableEq, Repr

/-- `setPlayerState` (src/gateway/server.ts lines 38-58): without
`force`, a player already READY or IN_GAME only gets a heartbeat refresh;
otherwise both `state` and `heartbeat_at` are written. -/
def setPlayerState (existing : Option PlayerHash) (st : String)
    (force : Bool) (now : Nat) : PlayerHash :=
  let cur := existing.bind (·.state)
  if force = false ∧ (cur = some "READY" ∨ cur = some "IN_GAME") then
    { state := cur, heartbeatAt := some now }
  else
    { state := some st, heartbeatAt := some now }

/-- The write performed by the `ws.on("close")` handler
(src/gateway/server.ts lines 199-201): a raw
`hset player:{id} {state: "IN_LOBBY"}` with no state check; the merge
keeps any other fields. -/
def closeWrite (existing : Option PlayerHash) : PlayerHash :=
  { state := some "IN_LOBBY", heartbeatAt := existing.bind (·.heartbeatAt) }

end Gateway

namespace Runner

/-- Program counter of one session runner working on a single game, as
executed by `processActiveGames` (src/session/runner.ts lines 156-185):
read the game hash; on FINISHED drop the game, on RUNNING and due attempt
`acquireFinishLock`; the lock winner performs the `finishGame` write group
(game state := FINISHED) and then publishes `events:match_ended`. -/
inductive Pc
  | poll
  | tryLock
  | mark
  | publish
  | dropped
  | done
deriving DecidableEq, Repr

/-- Shared store state for the finish protocol of one game: the
`game:{id}.state` flag, the `lock:finish:{id}` key, counters of FINISHED
hash writes and of `events:match_ended` publishes, and one program
counter per runner.  The lock TTL is not modelled: within the claim
regime the two store round trips of the critical section complete inside
the 5 second TTL, so the lock, once set, stays set. -/
structure FinState where
  finished : Bool
  lockTaken : Bool
  finishWrites : Nat
  published : Nat
  runners : List Pc
deriving DecidableEq, Repr

/-- Interleaved small-step semantics of the finish protocol: any runner
may take its next store round trip. -/
inductive FinStep : FinState → FinState → Prop
  | pollRunning {s : FinState} {l r : List Pc}
      (h : s.runners = l ++ Pc.poll :: r) (hf : s.finished = false) :
      FinStep s { s with runners := (l ++ Pc.tryLock :: r) }
  | pollFinished {s : FinState} {l r : List Pc}
      (h : s.runners = l ++ Pc.poll :: r) (hf : s.finished = true) :
      FinStep s { s with runners := (l ++ Pc.dropped :: r) }
  | lockOk {s : FinState} {l r : List Pc}
      (h : s.runners = l ++ Pc.tryLock :: r) (hl : s.lockTaken = false) :
      FinStep s { s with runners := (l ++ Pc.mark :: r), lockTaken := true }
  | lockBusy {s : FinState} {l r : List Pc}
      (h : s.runners = l ++ Pc.tryLock :: r) (hl : s.lockTaken = true) :
      FinStep s { s with runners := (l ++ Pc.poll :: r) }
  | markFinished {s : FinState} {l r : List Pc}
      (h : s.runners = l ++ Pc.mark :: r) :
      FinStep s { s with runners := (l ++ Pc.publish :: r), finished := true, finishWrites := s.finishWrites + 1 }
  | publishEnded {s : FinState} {l r : List Pc}
      (h : s.runners = l ++ Pc.publish :: r) :
      FinStep s { s with runners := (l ++ Pc.done :: r), published := s.published + 1 }

/-- Initial state: the game is RUNNING, the finish lock is absent, and
`n` runners all track the game. -/
def finStart (n : Nat) : FinState :=
  ⟨false, false, 0, 0, List.replicate n Pc.poll⟩

/-- Program counters past a successful lock acquisition. -/
def isPastLock : Pc → Bool
  | .mark | .publish | .done => true
  | _ => false

/-- Program counters past the FINISHED hash write. -/
def pastMark : Pc → Bool
  | .publish | .done => true
  | _ => false

/-- Program counters past the `events:match_ended` publish. -/
def pastPublish : Pc → Bool
  | .done => true
  | _ => false

/-- Runners that have passed the lock acquisition. -/
def acquirers (s : FinState) : Nat :=
  s.runners.countP isPastLock

/-- The inductive invariant of the finish protocol: the lock counts the
runners past acquisition, and the two counters match the runners past the
corresponding protocol point. -/
def FinInv (s : FinState) : Prop :=
  acquirers s = (if s.lockTaken then 1 else 0) ∧
  s.finishWrites = s.runners.countP pastMark ∧
  s.published = s.runners.countP pastPublish

end Runner

namespace Slots

/-!
Slot accounting for one multi-slot session.  The session runner side
(`updateAvailability`, game adoption and finishing) is embedded from
src/session/runner.ts.  The matchmaker side is missing from the sources
(only the runner and the reconciler touch `sessions:available`), so the
reservation and release steps are modelled from the spec, section 4.2:
reservation atomically decrements the score of an available member
(removing it at zero), increments `active_games` and appends the new game
ID to `game_ids`; release restores the previous score and decrements
`active_games`.
-/

/-- Joint state of one session: its hash fields (`active_games`,
`game_ids`), its `sessions:available` membership and score, the game
hashes that are RUNNING, the runner-local `activeGames` set (`tracked`),
and the matchmaker-local set of in-flight reservations with the
score observed at reservation time (`pending`). -/
structure St where
  maxSlots : Nat
  active : Nat
  gids : List String
  member : Bool
  score : Nat
  tracked : List String
  running : List String
  pending : List (String × Nat)
deriving DecidableEq, Repr

/-- `updateAvailability` (src/session/runner.ts lines 46-70): one atomic
pipeline writing the hash from the runner-local set and upserting or
removing the `sessions:available` entry depending on the sign of
`max_slots - active_games`. -/
def updAvail (s : St) : St :=
  let availableSlots : Int := (s.maxSlots : Int) - s.tracked.length
  { s with
    active := s.tracked.length, gids := s.tracked,
    member := decide (0 < availableSlots),
    score := if 0 < availableSlots then availableSlots.toNat else 0 }

/-- Atomic events of the slot-accounting subsystem. -/
inductive Act
  | updAvail
  | adopt (g : String)
  | dropLocal (g : String)
  | markGameFinished (g : String)
  | reserve (g : String)
  | materialize (g : String)
  | release (g : String)
deriving DecidableEq, Repr

/-- One atomic event.  `adopt` is `checkForNewGames` picking up a RUNNING
game listed in `game_ids`; `dropLocal` is the local deletion inside
`finishGame`/`processActiveGames`; `markGameFinished` is the FINISHED
hash write; `reserve`, `materialize` and `release` are the spec-modelled
matchmaker steps (reserve a slot for a fresh game id, create the RUNNING
game record, undo a reservation whose batch collection failed).  Returns
`none` when the guard of the event does not hold. -/
def step (s : St) : Act → Option St
  | .updAvail => some (updAvail s)
  | .adopt g =>
      if g ∈ s.gids ∧ g ∈ s.running ∧ g ∉ s.tracked then
        some { s with tracked := g :: s.tracked }
      else none
  | .dropLocal g =>
      if g ∈ s.tracked then some { s with tracked := s.tracked.erase g } else none
  | .markGameFinished g =>
      if g ∈ s.running then some { s with running := s.running.erase g } else none
  | .reserve g =>
      if s.member = true ∧ g ∉ s.gids ∧ g ∉ s.running ∧ g ∉ s.pending.map Prod.fst then
        some { s with
          gids := s.gids ++ [g], active := s.active + 1,
          score := s.score - 1, member := decide (0 < s.score - 1),
          pending := ((g, s.score) :: s.pending) }
      else none
  | .materialize g =>
      if g ∈ s.pending.map Prod.fst then
        some { s with
          running := (g :: s.running),
          pending := s.pending.filter (fun p => p.1 ≠ g) }
      else none
  | .release g =>
      match s.pending.find? (fun p => p.1 = g) with
      | some pr =>
          some { s with
            gids := s.gids.erase g, active := s.active - 1,
            score := pr.2, member := decide (0 < pr.2),
            pending := s.pending.filter (fun p => p.1 ≠ g) }
      | none => none

/-- Run a sequence of events, failing if any guard fails. -/
def runTrace (s : St) : List Act → Option St
  | [] => some s
  | a :: rest => (step s a).bind (fun s1 => runTrace s1 rest)

/-- A fresh session before its first availability publication. -/
def blankSt (m : Nat) : St :=
  ⟨m, 0, [], false, 0, [], [], []⟩

end Slots

namespace Autoscaler

/-!
The Proxmox autoscaler.  Configuration constants are the defaults of
`config.scaling`; thresholds are percentages compared against a rational
utilization (the source uses JS numbers; all quantities involved are
small exact integers and exact ratios).
-/

def minSessions : Nat := 10
def maxSessions : Nat := 300
def playersPerSession : Nat := 100
def slotsPerSession : Nat := 5
def scaleUpThresholdPercent : ℚ := 80
def scaleDownThresholdPercent : ℚ := 30
def scaleUpCooldown : Nat := 30000
def scaleDownCooldown : Nat := 300000
def scaleUpBatchSize : Nat := 5
def scaleDownBatchSize : Nat := 3
def vmidStart : Nat := 200
def vmidEnd : Nat := 499

/-- A provisioned backend container in the session VMID range. -/
structure Container where
  vmid : Nat
  status : String
deriving DecidableEq, Repr

/-- The `session:{id}` hash as the autoscaler reads and writes it
(fields it does not touch are omitted from reads by `hget`). -/
structure SessHash where
  state : Option String := none
  maxSlotsField : Option Nat := none
  activeGamesField : Option Nat := none
  vmidField : Option Nat := none
deriving DecidableEq, Repr

/-- The store slice the autoscaler touches: `session:*` hashes keyed by
the part after `session:`, the `sessions:available` sorted set, the
legacy `sessions:idle` set, and the demand inputs it only reads. -/
structure AStore where
  sessions : List (String × SessHash)
  availMembers : List (String × Nat)
  sessionsIdle : List String
  queueReadyLen : Nat
  playersInGame : Nat
deriving DecidableEq, Repr

/-- The timer state held in module-level variables. -/
structure Timers where
  lastScaleUp : Nat
  lastScaleDown : Nat
  lowUsageSince : Nat
deriving DecidableEq, Repr

/-- `Math.ceil (a / b)` on naturals. -/
def ceilDiv (a b : Nat) : Nat := (a + b - 1) / b

/-- The demand sample of `getScalingMetrics` (part of the autoscaler):
counts over `session:*` hashes with `parseInt` defaults
(`max_slots` defaults to `slotsPerSession`, `active_games` to 0). -/
structure Metrics where
  queueLength : Nat
  totalSessions : Nat
  totalSlots : Nat
  usedSlots : Nat
  availableSlots : Int
  playersInGame : Nat
  utilizationPercent : ℚ
deriving DecidableEq, Repr

def sessMaxSlots (h : SessHash) : Nat := h.maxSlotsField.getD slotsPerSession

def sessActiveGames (h : SessHash) : Nat := h.activeGamesField.getD 0

/-- `getScalingMetrics` over the store. -/
def getScalingMetrics (st : AStore) : Metrics :=
  let totalSlots := (st.sessions.map (fun p => sessMaxSlots p.2)).sum
  let usedSlots := (st.sessions.map (fun p => sessActiveGames p.2)).sum
  { queueLength := st.queueReadyLen,
    totalSessions := st.sessions.length,
    totalSlots := totalSlots,
    usedSlots := usedSlots,
    availableSlots := (totalSlots : Int) - usedSlots,
    playersInGame := st.playersInGame,
    utilizationPercent :=
      if 0 < totalSlots then (usedSlots : ℚ) / (totalSlots : ℚ) * 100 else 0 }

/-- `findAvailableVmids`: first `count` VMIDs of the configured range not
used by an existing container. -/
def findAvailableVmids (count : Nat) (containers : List Container) : List Nat :=
  (((List.range (vmidEnd + 1)).filter (fun v => vmidStart ≤ v)).filter
    (fun v => v ∉ containers.map Container.vmid)).take count

/-- Store writes of `createSessionContainer` after the backend calls
succeed: register `session:session-{vmid}` as IDLE. -/
def applyCreate (st : AStore) (vmid : Nat) : AStore :=
  { st with
    sessions := Matchmaker.upsert st.sessions ("session-" ++ toString vmid)
      { state := some "IDLE", vmidField := some vmid } }

/-- Store writes of `destroySessionContainer`: delete the session hash
and remove both key shapes from `sessions:available`. -/
def applyDestroy (st : AStore) (vmid : Nat) : AStore :=
  let sid := "session-" ++ toString vmid
  { st with
    sessions := st.sessions.filter (fun p => p.1 ≠ sid),
    availMembers := st.availMembers.filter
      (fun p => p.1 ≠ sid ∧ p.1 ≠ toString vmid) }

/-- `scaleUp` (the autoscaler, lines 400-433): skip inside the scale-up
cooldown; otherwise create up to
`min needed (min (maxSessions - current) scaleUpBatchSize)` containers on
free VMIDs, stamp `lastScaleUp` and reset the low-usage timer.  Returns
the created VMIDs, the store after the registration writes, and the
timers.  Backend calls are assumed to succeed. -/
def scaleUp (needed : Nat) (containers : List Container) (st : AStore)
    (now : Nat) (t : Timers) : List Nat × AStore × Timers :=
  if now - t.lastScaleUp < scaleUpCooldown then ([], st, t)
  else
    let currentCount := containers.length
    let maxToCreate : Int :=
      min (needed : Int) (min ((maxSessions : Int) - currentCount) (scaleUpBatchSize : Int))
    if maxToCreate ≤ 0 then ([], st, t)
    else
      let vmids := findAvailableVmids maxToCreate.toNat containers
      (vmids, vmids.foldl applyCreate st,
        { t with lastScaleUp := now, lowUsageSince := 0 })

/-- Insertion into a list of containers kept in descending VMID order,
modelling `sort((a, b) => b.vmid - a.vmid)`. -/
def insertDesc (c : Container) : List Container → List Container
  | [] => [c]
  | d :: rest => if d.vmid ≤ c.vmid then c :: d :: rest else d :: insertDesc c rest

def sortDesc (l : List Container) : List Container := l.foldr insertDesc []

/-- The idleness test of `scaleDown`: the session hash `state` field is
IDLE or missing. -/
def idleByState (st : AStore) (c : Container) : Bool :=
  let state := (st.sessions.lookup ("session-" ++ toString c.vmid)).bind SessHash.state
  state = some "IDLE" ∨ state = none

/-- `scaleDown` (the autoscaler, lines 435-487): start the low-usage
timer on its first low tick, wait out `scaleDownCooldown`, then destroy
up to `min excess (current - minSessions)` containers whose session state
is IDLE or missing, highest VMIDs first.  Returns the destroyed VMIDs,
the store and the timers. -/
def scaleDown (excess : Nat) (containers : List Container) (st : AStore)
    (now : Nat) (t : Timers) : List Nat × AStore × Timers :=
  if t.lowUsageSince = 0 then ([], st, { t with lowUsageSince := now })
  else if now - t.lowUsageSince < scaleDownCooldown then ([], st, t)
  else
    let currentCount := containers.length
    let maxToRemove : Int := min (excess : Int) ((currentCount : Int) - minSessions)
    if maxToRemove ≤ 0 then ([], st, t)
    else
      let idleContainers := (sortDesc (containers.filter (idleByState st))).take maxToRemove.toNat
      let vmids := idleContainers.map Container.vmid
      (vmids, vmids.foldl applyDestroy st,
        { t with lastScaleDown := now, lowUsageSince := 0 })

/-- The VMID encoded in a `session:*` key, per the two recognized key
shapes `session:session-{n}` and `session:{n}`. -/
def vmidOfKey (sessionId : String) : Option Nat :=
  if sessionId.startsWith "session-" then (sessionId.drop 8).toNat?
  else sessionId.toNat?

/-- The keys of the store currently mapping to the given VMID. -/
def keysForVmid (st : AStore) (v : Nat) : List String :=
  (st.sessions.map Prod.fst).filter (fun k => vmidOfKey k = some v)

/-- Among duplicate keys for one VMID, the key the cleanup keeps:
the `session:session-{n}` shape if present, else the first. -/
def keepKeyForVmid (st : AStore) (v : Nat) : Option String :=
  match (keysForVmid st v).find? (fun k => k.startsWith "session-") with
  | some k => some k
  | none => (keysForVmid st v).head?

/-- Whether the orphan-and-duplicate cleanup keeps a key: keys with no
parseable VMID are untouched; a key with VMID `v` survives iff `v` has a
backend container and the key is the representative kept for `v`. -/
def keyKeptAfterCleanup (containers : List Container) (st : AStore)
    (k : String) : Bool :=
  match vmidOfKey k with
  | none => true
  | some v => v ∈ containers.map Container.vmid ∧ keepKeyForVmid st v = some k

/-- `reconcileSessions` (the autoscaler, lines 494-612).  With an empty
container list the guard returns immediately and the store is untouched.
Otherwise: delete session keys whose VMID has no container and duplicate
key shapes; then rebuild `sessions:available` from
`max_slots - active_games` of the surviving hashes (members with a
positive count get that score, all others are removed); finally delete
the legacy `sessions:idle` set. -/
def reconcileSessions (containers : List Container) (st : AStore) : AStore :=
  if containers.length = 0 then st
  else
    let cleaned := st.sessions.filter (fun p => keyKeptAfterCleanup containers st p.1)
    let actual := cleaned.filterMap (fun p =>
      let avail : Int := (sessMaxSlots p.2 : Int) - sessActiveGames p.2
      if 0 < avail then some (p.1, avail.toNat) else none)
    let updated := st.availMembers.filterMap (fun m =>
      match actual.find? (fun a => a.1 = m.1) with
      | some a => some (m.1, a.2)
      | none => none)
    let added := actual.filter (fun a => st.availMembers.find? (fun m => m.1 = a.1) = none)
    { st with sessions := cleaned, availMembers := updated ++ added, sessionsIdle := [] }

/-- Outcome of one autoscaler tick: VMIDs created and destroyed, the
resulting store and timers. -/
structure TickResult where
  created : List Nat
  destroyed : List Nat
  store : AStore
  timers : Timers
deriving DecidableEq, Repr

/-- The sessions needed per the demand formula of `checkAndScale`:
`clamp(ceil(ceil((players_in_game + queue) / players_per_session) /
slots_per_session), min, max)`. -/
def clampedNeeded (m : Metrics) : Nat :=
  max minSessions (min maxSessions
    (ceilDiv (ceilDiv (m.playersInGame + m.queueLength) playersPerSession) slotsPerSession))

/-- The utilization-driven if-chain of `checkAndScale` (the autoscaler,
lines 659-676): scale up on a deficit above the high threshold, scale
down on an excess below the low threshold, otherwise reset the low-usage
timer. -/
def utilizationBranch (m : Metrics) (containers : List Container)
    (st : AStore) (now : Nat) (t : Timers) : TickResult :=
  if scaleUpThresholdPercent < m.utilizationPercent then
    let deficit : Int := (clampedNeeded m : Int) - m.totalSessions
    if 0 < deficit then
      let r := scaleUp deficit.toNat containers st now t
      ⟨r.1, [], r.2.1, r.2.2⟩
    else ⟨[], [], st, t⟩
  else if m.utilizationPercent < scaleDownThresholdPercent ∧ minSessions < m.totalSessions then
    let excess : Int := (m.totalSessions : Int) - max minSessions (clampedNeeded m)
    if 0 < excess then
      let r := scaleDown excess.toNat containers st now t
      ⟨[], r.1, r.2.1, r.2.2⟩
    else ⟨[], [], st, t⟩
  else
    ⟨[], [], st, { t with lowUsageSince := 0 }⟩

/-- The number of additional sessions the starvation branch asks for. -/
def additionalNeeded (m : Metrics) : Nat :=
  min (ceilDiv (ceilDiv m.queueLength playersPerSession) slotsPerSession)
    (maxSessions - m.totalSessions)

/-- The decision part of `checkAndScale` (the autoscaler, lines 618-677),
after reconciliation and metric sampling: the slot-starvation branch
first (which delegates to `scaleUp` and returns), then the
high-utilization, low-utilization and balanced branches. -/
def checkAndScaleBody (m : Metrics) (containers : List Container)
    (st : AStore) (now : Nat) (t : Timers) : TickResult :=
  if playersPerSession ≤ m.queueLength ∧ m.availableSlots = 0 ∧ m.totalSessions < maxSessions then
    if 0 < additionalNeeded m then
      let r := scaleUp (additionalNeeded m) containers st now t
      ⟨r.1, [], r.2.1, r.2.2⟩
    else utilizationBranch m containers st now t
  else utilizationBranch m containers st now t

/-- One full autoscaler tick: reconcile against the backend listing, then
sample metrics and decide.  Every backend `list()` of the tick returns
`containers`. -/
def checkAndScale (containers : List Container) (st : AStore) (now : Nat)
    (t : Timers) : TickResult :=
  let st1 := reconcileSessions containers st
  checkAndScaleBody (getScalingMetrics st1) containers st1 now t

/-- A starved sample: 100 players queued, five fully busy sessions. -/
def starvedMetrics : Metrics :=
  ⟨100, 5, 25, 25, 0, 2500, 100⟩

/-- Five backend containers, VMIDs 200 to 204. -/
def fiveContainers : List Container :=
  (List.range 5).map (fun i => ⟨200 + i, "running"⟩)

/-- A store matching `starvedMetrics` only in the fields the scaling
branches read. -/
def starvedStore : AStore :=
  ⟨[], [], [], 100, 2500⟩

/-- Timers one second after the last scale-up: cooldown active. -/
def recentScaleUpTimers : Timers :=
  ⟨99000, 0, 0⟩

/-- Fifteen backend containers, VMIDs 200 to 214. -/
def fifteenContainers : List Container :=
  (List.range 15).map (fun i => ⟨200 + i, "running"⟩)

/-- A store in which `session:session-214` has three active games but no
`state` field. -/
def busySession214Store : AStore :=
  ⟨[("session-214", ⟨none, none, some 3, none⟩)], [], [], 0, 0⟩

/-- Timers whose low-usage clock started long enough ago for the
scale-down cooldown to have elapsed at time 300200. -/
def elapsedLowUsageTimers : Timers :=
  ⟨0, 0, 100⟩

end Autoscaler

namespace Matchmaker

theorem readyCount_nil (stateOf : StateLookup) : readyCount stateOf [] = 0 := rfl

theorem readyCount_cons (stateOf : StateLookup) (id : String) (q : List String) :
    readyCount stateOf (id :: q) =
      (if stateOf id = some "READY" then 1 else 0) + readyCount stateOf q := by
  simp only [readyCount, List.filter_cons]
  split
  · next h =>
    rw [if_pos (of_decide_eq_true h)]
    simp [Nat.add_comm]
  · next h =>
    rw [if_neg (of_decide_eq_false (Bool.of_not_eq_true h))]
    simp

theorem readyCount_append (stateOf : StateLookup) (a b : List String) :
    readyCount stateOf (a ++ b) = readyCount stateOf a + readyCount stateOf b := by
  simp [readyCount, List.filter_append]

theorem readyCount_eq_length (stateOf : StateLookup) (l : List String)
    (h : ∀ id ∈ l, stateOf id = some "READY") :
    readyCount stateOf l = l.length := by
  unfold readyCount
  rw [List.filter_eq_self.mpr]
  intro a ha
  exact decide_eq_true (h a ha)

theorem classify_len (stateOf : StateLookup) (cands : List String) :
    ∀ (picked toReturn : List String),
      (classifyCandidates stateOf cands picked toReturn).1.length +
        (classifyCandidates stateOf cands picked toReturn).2.length =
        picked.length + toReturn.length + readyCount stateOf cands := by
  induction cands with
  | nil => intro picked toReturn; simp [classifyCandidates, readyCount]
  | cons id rest ih =>
    intro picked toReturn
    rw [readyCount_cons]
    by_cases hid : stateOf id = some "READY"
    · by_cases hlen : picked.length < BATCH_SIZE
      · simp only [classifyCandidates, if_pos hid, if_pos hlen, ih, if_pos hid,
          List.length_append, List.length_singleton]
        omega
      · simp only [classifyCandidates, if_pos hid, if_neg hlen, ih,
          List.length_append, List.length_singleton]
        omega
    · simp only [classifyCandidates, if_neg hid, ih, if_neg hid]
      omega

theorem classify_bound (stateOf : StateLookup) (cands : List String) :
    ∀ (picked toReturn : List String), picked.length ≤ BATCH_SIZE →
      (classifyCandidates stateOf cands picked toReturn).1.length ≤ BATCH_SIZE := by
  induction cands with
  | nil => intro picked toReturn h; simpa [classifyCandidates] using h
  | cons id rest ih =>
    intro picked toReturn h
    by_cases hid : stateOf id = some "READY"
    · by_cases hlen : picked.length < BATCH_SIZE
      · simp only [classifyCandidates, if_pos hid, if_pos hlen]
        exact ih _ _ (by simp; omega)
      · simp only [classifyCandidates, if_pos hid, if_neg hlen]
        exact ih _ _ h
    · simp only [classifyCandidates, if_neg hid]
      exact ih _ _ h

theorem classify_ready (stateOf : StateLookup) (cands : List String) :
    ∀ (picked toReturn : List String) (id : String),
      (id ∈ (classifyCandidates stateOf cands picked toReturn).1 →
        id ∈ picked ∨ stateOf id = some "READY") ∧
      (id ∈ (classifyCandidates stateOf cands picked toReturn).2 →
        id ∈ toReturn ∨ stateOf id = some "READY") := by
  induction cands with
  | nil =>
    intro picked toReturn id
    simp only [classifyCandidates]
    exact ⟨Or.inl, Or.inl⟩
  | cons c rest ih =>
    intro picked toReturn id
    by_cases hid : stateOf c = some "READY"
    · by_cases hlen : picked.length < BATCH_SIZE
      · simp only [classifyCandidates, if_pos hid, if_pos hlen]
        constructor
        · intro h
          rcases (ih _ _ id).1 h with h1 | h1
          · rcases List.mem_append.mp h1 with h2 | h2
            · exact Or.inl h2
            · right; rwa [List.mem_singleton.mp h2]
          · exact Or.inr h1
        · exact (ih _ _ id).2
      · simp only [classifyCandidates, if_pos hid, if_neg hlen]
        constructor
        · exact (ih _ _ id).1
        · intro h
          rcases (ih _ _ id).2 h with h1 | h1
          · rcases List.mem_append.mp h1 with h2 | h2
            · exact Or.inl h2
            · right; rwa [List.mem_singleton.mp h2]
          · exact Or.inr h1
    · simp only [classifyCandidates, if_neg hid]
      exact ih _ _ id

theorem classify_mono (stateOf : StateLookup) (cands : List String) :
    ∀ (picked toReturn : List String) (id : String),
      (id ∈ picked → id ∈ (classifyCandidates stateOf cands picked toReturn).1) ∧
      (id ∈ toReturn → id ∈ (classifyCandidates stateOf cands picked toReturn).2) := by
  induction cands with
  | nil => intro picked toReturn id; simp [classifyCandidates]
  | cons c rest ih =>
    intro picked toReturn id
    by_cases hid : stateOf c = some "READY"
    · by_cases hlen : picked.length < BATCH_SIZE
      · simp only [classifyCandidates, if_pos hid, if_pos hlen]
        exact ⟨fun h => (ih _ _ id).1 (List.mem_append.mpr (Or.inl h)), (ih _ _ id).2⟩
      · simp only [classifyCandidates, if_pos hid, if_neg hlen]
        exact ⟨(ih _ _ id).1, fun h => (ih _ _ id).2 (List.mem_append.mpr (Or.inl h))⟩
    · simp only [classifyCandidates, if_neg hid]
      exact ih _ _ id

theorem classify_covers (stateOf : StateLookup) (cands : List String) :
    ∀ (picked toReturn : List String) (id : String), id ∈ cands →
      stateOf id = some "READY" →
      id ∈ (classifyCandidates stateOf cands picked toReturn).1 ∨
        id ∈ (classifyCandidates stateOf cands picked toReturn).2 := by
  induction cands with
  | nil => intro picked toReturn id h; simp at h
  | cons c rest ih =>
    intro picked toReturn id hmem hready
    by_cases hid : stateOf c = some "READY"
    · by_cases hlen : picked.length < BATCH_SIZE
      · simp only [classifyCandidates, if_pos hid, if_pos hlen]
        rcases List.mem_cons.mp hmem with h | h
        · left
          exact (classify_mono stateOf rest _ _ id).1
            (List.mem_append.mpr (Or.inr (List.mem_singleton.mpr h)))
        · exact ih _ _ id h hready
      · simp only [classifyCandidates, if_pos hid, if_neg hlen]
        rcases List.mem_cons.mp hmem with h | h
        · right
          exact (classify_mono stateOf rest _ _ id).2
            (List.mem_append.mpr (Or.inr (List.mem_singleton.mpr h)))
        · exact ih _ _ id h hready
    · rcases List.mem_cons.mp hmem with h | h
      · exact absurd (h ▸ hready) hid
      · simp only [classifyCandidates, if_neg hid]
        exact ih _ _ id h hready

theorem pickLoop_len (stateOf : StateLookup) :
    ∀ (fuel : Nat) (queue picked toReturn : List String) (inspected : Nat),
      readyCount stateOf (pickLoop stateOf fuel queue picked toReturn inspected).1 +
        (pickLoop stateOf fuel queue picked toReturn inspected).2.1.length +
        (pickLoop stateOf fuel queue picked toReturn inspected).2.2.length =
        readyCount stateOf queue + picked.length + toReturn.length := by
  intro fuel
  induction fuel with
  | zero => intro queue picked toReturn inspected; simp [pickLoop]
  | succ fuel ih =>
    intro queue picked toReturn inspected
    by_cases hg : picked.length < BATCH_SIZE ∧ inspected < MAX_PULL
    · simp only [pickLoop, if_pos hg]
      by_cases hc :
          (queue.take (min ((BATCH_SIZE - picked.length) * 2) (MAX_PULL - inspected))).length = 0
      · rw [if_pos hc]
      · rw [if_neg hc]
        have key := classify_len stateOf
          (queue.take (min ((BATCH_SIZE - picked.length) * 2) (MAX_PULL - inspected)))
          picked toReturn
        have ihh := ih
          (queue.drop (min ((BATCH_SIZE - picked.length) * 2) (MAX_PULL - inspected)))
          (classifyCandidates stateOf
            (queue.take (min ((BATCH_SIZE - picked.length) * 2) (MAX_PULL - inspected)))
            picked toReturn).1
          (classifyCandidates stateOf
            (queue.take (min ((BATCH_SIZE - picked.length) * 2) (MAX_PULL - inspected)))
            picked toReturn).2
          (inspected +
            (queue.take (min ((BATCH_SIZE - picked.length) * 2) (MAX_PULL - inspected))).length)
        rw [ihh]
        conv_rhs => rw [← List.take_append_drop
          (min ((BATCH_SIZE - picked.length) * 2) (MAX_PULL - inspected)) queue]
        rw [readyCount_append]
        omega
    · simp only [pickLoop, if_neg hg]

theorem pickLoop_bound (stateOf : StateLookup) :
    ∀ (fuel : Nat) (queue picked toReturn : List String) (inspected : Nat),
      picked.length ≤ BATCH_SIZE →
      (pickLoop stateOf fuel queue picked toReturn inspected).2.1.length ≤ BATCH_SIZE := by
  intro fuel
  induction fuel with
  | zero => intro queue picked toReturn inspected h; simpa [pickLoop] using h
  | succ fuel ih =>
    intro queue picked toReturn inspected h
    by_cases hg : picked.length < BATCH_SIZE ∧ inspected < MAX_PULL
    · simp only [pickLoop, if_pos hg]
      by_cases hc :
          (queue.take (min ((BATCH_SIZE - picked.length) * 2) (MAX_PULL - inspected))).length = 0
      · rw [if_pos hc]; exact h
      · rw [if_neg hc]
        exact ih _ _ _ _ (classify_bound stateOf _ picked toReturn h)
    · simp only [pickLoop, if_neg hg]; exact h

theorem pickLoop_ready (stateOf : StateLookup) :
    ∀ (fuel : Nat) (queue picked toReturn : List String) (inspected : Nat) (id : String),
      (id ∈ (pickLoop stateOf fuel queue picked toReturn inspected).2.1 →
        id ∈ picked ∨ stateOf id = some "READY") ∧
      (id ∈ (pickLoop stateOf fuel queue picked toReturn inspected).2.2 →
        id ∈ toReturn ∨ stateOf id = some "READY") := by
  intro fuel
  induction fuel with
  | zero =>
    intro queue picked toReturn inspected id
    simp only [pickLoop]
    exact ⟨Or.inl, Or.inl⟩
  | succ fuel ih =>
    intro queue picked toReturn inspected id
    by_cases hg : picked.length < BATCH_SIZE ∧ inspected < MAX_PULL
    · simp only [pickLoop, if_pos hg]
      by_cases hc :
          (queue.take (min ((BATCH_SIZE - picked.length) * 2) (MAX_PULL - inspected))).length = 0
      · rw [if_pos hc]; exact ⟨Or.inl, Or.inl⟩
      · rw [if_neg hc]
        constructor
        · intro hmem
          rcases (ih _ _ _ _ id).1 hmem with h1 | h1
          · exact (classify_ready stateOf _ picked toReturn id).1 h1
          · exact Or.inr h1
        · intro hmem
          rcases (ih _ _ _ _ id).2 hmem with h1 | h1
          · exact (classify_ready stateOf _ picked toReturn id).2 h1
          · exact Or.inr h1
    · simp only [pickLoop, if_neg hg]
      exact ⟨Or.inl, Or.inl⟩

theorem pickLoop_mono (stateOf : StateLookup) :
    ∀ (fuel : Nat) (queue picked toReturn : List String) (inspected : Nat) (id : String),
      (id ∈ picked → id ∈ (pickLoop stateOf fuel queue picked toReturn inspected).2.1) ∧
      (id ∈ toReturn → id ∈ (pickLoop stateOf fuel queue picked toReturn inspected).2.2) := by
  intro fuel
  induction fuel with
  | zero =>
    intro queue picked toReturn inspected id
    simp only [pickLoop]
    exact ⟨fun h => h, fun h => h⟩
  | succ fuel ih =>
    intro queue picked toReturn inspected id
    by_cases hg : picked.length < BATCH_SIZE ∧ inspected < MAX_PULL
    · simp only [pickLoop, if_pos hg]
      by_cases hc :
          (queue.take (min ((BATCH_SIZE - picked.length) * 2) (MAX_PULL - inspected))).length = 0
      · rw [if_pos hc]; exact ⟨fun h => h, fun h => h⟩
      · rw [if_neg hc]
        constructor
        · intro hmem
          exact (ih _ _ _ _ id).1 ((classify_mono stateOf _ picked toReturn id).1 hmem)
        · intro hmem
          exact (ih _ _ _ _ id).2 ((classify_mono stateOf _ picked toReturn id).2 hmem)
    · simp only [pickLoop, if_neg hg]
      exact ⟨fun h => h, fun h => h⟩

theorem pickLoop_covers (stateOf : StateLookup) :
    ∀ (fuel : Nat) (queue picked toReturn : List String) (inspected : Nat) (id : String),
      id ∈ queue → stateOf id = some "READY" →
      id ∈ (pickLoop stateOf fuel queue picked toReturn inspected).1 ∨
        id ∈ (pickLoop stateOf fuel queue picked toReturn inspected).2.1 ∨
        id ∈ (pickLoop stateOf fuel queue picked toReturn inspected).2.2 := by
  intro fuel
  induction fuel with
  | zero =>
    intro queue picked toReturn inspected id hmem _
    simp only [pickLoop]
    exact Or.inl hmem
  | succ fuel ih =>
    intro queue picked toReturn inspected id hmem hready
    by_cases hg : picked.length < BATCH_SIZE ∧ inspected < MAX_PULL
    · simp only [pickLoop, if_pos hg]
      by_cases hc :
          (queue.take (min ((BATCH_SIZE - picked.length) * 2) (MAX_PULL - inspected))).length = 0
      · rw [if_pos hc]; exact Or.inl hmem
      · rw [if_neg hc]
        have hsplit : id ∈ queue.take (min ((BATCH_SIZE - picked.length) * 2)
            (MAX_PULL - inspected)) ∨ id ∈ queue.drop (min ((BATCH_SIZE - picked.length) * 2)
            (MAX_PULL - inspected)) := by
          rw [← List.mem_append, List.take_append_drop]
          exact hmem
        rcases hsplit with h | h
        · rcases classify_covers stateOf _ picked toReturn id h hready with h1 | h1
          · exact Or.inr (Or.inl ((pickLoop_mono stateOf fuel _ _ _ _ id).1 h1))
          · exact Or.inr (Or.inr ((pickLoop_mono stateOf fuel _ _ _ _ id).2 h1))
        · exact ih _ _ _ _ id h hready
    · simp only [pickLoop, if_neg hg]
      exact Or.inl hmem

end Matchmaker

namespace Matchmaker

theorem lookup_append_of_none {α : Type} (l m : List (String × α)) (k : String)
    (h : l.lookup k = none) : (l ++ m).lookup k = m.lookup k := by
  induction l with
  | nil => rfl
  | cons a t ih =>
    simp only [List.lookup, List.cons_append] at h ⊢
    cases hk : (k == a.1) with
    | true => rw [hk] at h; simp at h
    | false => rw [hk] at h; exact ih h

theorem upsert_lookup_map {α : Type} (l : List (String × α)) (k : String) (v : α)
    (h : (l.lookup k).isSome) :
    (l.map (fun p => if p.1 = k then (k, v) else p)).lookup k = some v := by
  induction l with
  | nil => simp [List.lookup] at h
  | cons a t ih =>
    obtain ⟨ak, av⟩ := a
    by_cases hk : ak = k
    · subst hk
      rw [List.map_cons, if_pos rfl]
      simp [List.lookup]
    · have hne : (k == ak) = false := beq_false_of_ne (fun he => hk he.symm)
      rw [List.map_cons, if_neg hk]
      simp only [List.lookup, hne] at h ⊢
      exact ih h

theorem upsert_lookup_self {α : Type} (l : List (String × α)) (k : String) (v : α) :
    (upsert l k v).lookup k = some v := by
  unfold upsert
  split
  · next h => exact upsert_lookup_map l k v h
  · next h =>
    have hnone : l.lookup k = none := by
      cases hl : l.lookup k with
      | none => rfl
      | some w => rw [hl] at h; simp at h
    rw [lookup_append_of_none l _ k hnone]
    simp [List.lookup]

theorem foldl_players_games (pids : List String) :
    ∀ (s : MStore) (gid sid : String) (now : Nat),
      (pids.foldl (fun acc pid =>
        { acc with players := upsert acc.players pid ⟨"IN_GAME", gid, sid, now⟩ }) s).games =
      s.games := by
  induction pids with
  | nil => intro s gid sid now; rfl
  | cons p t ih => intro s gid sid now; exact ih _ gid sid now

theorem createMatchWrites_games (s : MStore) (sessionId gameId : String)
    (durationMs now : Nat) (playerIds : List String) :
    (createMatchWrites s sessionId gameId durationMs now playerIds).games =
      upsert s.games gameId ⟨sessionId, "RUNNING", now, now + durationMs, playerIds⟩ := by
  unfold createMatchWrites
  rw [foldl_players_games]

theorem releaseSessionBackToIdle_eq (s : MStore) (sessionId : String) (now : Nat) :
    releaseSessionBackToIdle s sessionId now =
      if sessionId ∈ s.sessionsIdle then
        { s with sessions := upsert s.sessions sessionId ⟨"IDLE", "", now⟩ }
      else
        { s with sessions := upsert s.sessions sessionId ⟨"IDLE", "", now⟩,
                 sessionsIdle := s.sessionsIdle ++ [sessionId] } := rfl

theorem release_spec (s : MStore) (sessionId : String) (now : Nat) :
    sessionId ∈ (releaseSessionBackToIdle s sessionId now).sessionsIdle ∧
    (releaseSessionBackToIdle s sessionId now).sessions.lookup sessionId =
      some ⟨"IDLE", "", now⟩ ∧
    (releaseSessionBackToIdle s sessionId now).games = s.games := by
  rw [releaseSessionBackToIdle_eq]
  split
  · next h => exact ⟨h, upsert_lookup_self _ _ _, rfl⟩
  · exact ⟨List.mem_append.mpr (Or.inr (List.mem_singleton.mpr rfl)),
      upsert_lookup_self _ _ _, rfl⟩

theorem pickReadyPlayers_eq (stateOf : StateLookup) (queue : List String) :
    pickReadyPlayers stateOf queue =
      if 0 < (pickLoop stateOf (MAX_PULL + 1) queue [] [] 0).2.1.length ∧
          (pickLoop stateOf (MAX_PULL + 1) queue [] [] 0).2.1.length < BATCH_SIZE then
        ([], (if (pickLoop stateOf (MAX_PULL + 1) queue [] [] 0).2.2.length > 0 then
            (pickLoop stateOf (MAX_PULL + 1) queue [] [] 0).1 ++
              (pickLoop stateOf (MAX_PULL + 1) queue [] [] 0).2.2
          else (pickLoop stateOf (MAX_PULL + 1) queue [] [] 0).1) ++
          (pickLoop stateOf (MAX_PULL + 1) queue [] [] 0).2.1)
      else ((pickLoop stateOf (MAX_PULL + 1) queue [] [] 0).2.1,
        if (pickLoop stateOf (MAX_PULL + 1) queue [] [] 0).2.2.length > 0 then
          (pickLoop stateOf (MAX_PULL + 1) queue [] [] 0).1 ++
            (pickLoop stateOf (MAX_PULL + 1) queue [] [] 0).2.2
        else (pickLoop stateOf (MAX_PULL + 1) queue [] [] 0).1) := rfl

theorem innerIteration_eq (s : MStore) (sessionId gameId : String)
    (durationMs now : Nat) (publishThrows : Bool) :
    innerIteration s sessionId gameId durationMs now publishThrows =
      if (pickReadyPlayers (storeStateOf s) s.queueReady).1.length ≠ BATCH_SIZE then
        (releaseSessionBackToIdle
          { s with queueReady := (pickReadyPlayers (storeStateOf s) s.queueReady).2 }
          sessionId now, none)
      else if publishThrows then
        (releaseSessionBackToIdle
          (createMatchWrites
            { s with queueReady := (pickReadyPlayers (storeStateOf s) s.queueReady).2 }
            sessionId gameId durationMs now
            (pickReadyPlayers (storeStateOf s) s.queueReady).1)
          sessionId now, none)
      else
        (publishMatchFound
          (createMatchWrites
            { s with queueReady := (pickReadyPlayers (storeStateOf s) s.queueReady).2 }
            sessionId gameId durationMs now
            (pickReadyPlayers (storeStateOf s) s.queueReady).1)
          gameId sessionId (pickReadyPlayers (storeStateOf s) s.queueReady).1,
          some gameId) := rfl

/-- C1.  Every game the matchmaker creates holds exactly `BATCH_SIZE`
players, each of which read as READY from the store during the tick:
`pickReadyPlayers` returns exactly `BATCH_SIZE` IDs or the empty list,
every returned ID read as READY, and the inner loop invokes `createMatch`
only with a result of length `BATCH_SIZE`, storing exactly that set as
the game player set. -/
theorem matchmaker_batch_size_exact :
    (∀ (stateOf : StateLookup) (queue : List String),
      (pickReadyPlayers stateOf queue).1.length = BATCH_SIZE ∨
        (pickReadyPlayers stateOf queue).1 = []) ∧
    (∀ (stateOf : StateLookup) (queue : List String) (id : String),
      id ∈ (pickReadyPlayers stateOf queue).1 → stateOf id = some "READY") ∧
    (∀ (s : MStore) (sessionId gameId : String) (durationMs now : Nat)
        (publishThrows : Bool) (g : String),
      (innerIteration s sessionId gameId durationMs now publishThrows).2 = some g →
      g = gameId ∧
      (pickReadyPlayers (storeStateOf s) s.queueReady).1.length = BATCH_SIZE ∧
      (innerIteration s sessionId gameId durationMs now publishThrows).1.games.lookup g =
        some ⟨sessionId, "RUNNING", now, now + durationMs,
          (pickReadyPlayers (storeStateOf s) s.queueReady).1⟩) := by
  refine ⟨?_, ?_, ?_⟩
  · intro stateOf queue
    have hb := pickLoop_bound stateOf (MAX_PULL + 1) queue [] [] 0 (by simp [BATCH_SIZE])
    rw [pickReadyPlayers_eq]
    split
    · next h => exact Or.inr rfl
    · next h =>
      simp only [not_and, not_lt] at h
      rcases Nat.eq_zero_or_pos (pickLoop stateOf (MAX_PULL + 1) queue [] [] 0).2.1.length
        with h0 | hpos
      · exact Or.inr (List.length_eq_zero.mp h0)
      · exact Or.inl (Nat.le_antisymm hb (h hpos))
  · intro stateOf queue id hmem
    rw [pickReadyPlayers_eq] at hmem
    have hr := (pickLoop_ready stateOf (MAX_PULL + 1) queue [] [] 0 id).1
    split at hmem
    · simp at hmem
    · rcases hr hmem with h | h
      · simp at h
      · exact h
  · intro s sessionId gameId durationMs now publishThrows g hsome
    rw [innerIteration_eq] at hsome ⊢
    by_cases h1 : (pickReadyPlayers (storeStateOf s) s.queueReady).1.length ≠ BATCH_SIZE
    · rw [if_pos h1] at hsome
      simp at hsome
    · rw [if_neg h1] at hsome ⊢
      by_cases h2 : publishThrows = true
      · rw [if_pos h2] at hsome
        simp at hsome
      · rw [if_neg h2] at hsome ⊢
        simp only [Option.some.injEq] at hsome
        refine ⟨hsome.symm, not_not.mp h1, ?_⟩
        subst hsome
        show (publishMatchFound (createMatchWrites _ _ _ _ _ _) _ _ _).games.lookup _ = _
        simp only [publishMatchFound]
        rw [createMatchWrites_games]
        exact upsert_lookup_self _ _ _

set_option maxRecDepth 40000 in
/-- C1 witness: the createMatch clause applied at the concrete
`demoStore`, where a match is actually created. -/
theorem matchmaker_batch_size_exact_witness :
    "g1" = "g1" ∧
    (pickReadyPlayers (storeStateOf demoStore) demoStore.queueReady).1.length = BATCH_SIZE ∧
    (innerIteration demoStore "s1" "g1" 60000 1000 false).1.games.lookup "g1" =
      some ⟨"s1", "RUNNING", 1000, 1000 + 60000,
        (pickReadyPlayers (storeStateOf demoStore) demoStore.queueReady).1⟩ :=
  matchmaker_batch_size_exact.2.2 demoStore "s1" "g1" 60000 1000 false "g1" (by decide)

end Matchmaker

namespace Matchmaker

/-- C3 (amended).  For the first, current `pickReadyPlayers` (the variant
with the `toReturn` accumulator), no READY player is lost: the READY
count of the queue it leaves behind plus the size of the batch it returns
equals the READY count of the starting queue, and every READY entry of
the starting queue ends up in the batch or back in the queue.  The second
variant violates the claim (see the counterexample). -/
theorem pickReadyPlayers_queue_safety :
    ∀ (stateOf : StateLookup) (queue : List String),
      readyCount stateOf (pickReadyPlayers stateOf queue).2 +
          (pickReadyPlayers stateOf queue).1.length =
        readyCount stateOf queue ∧
      (∀ id, id ∈ queue → stateOf id = some "READY" →
        id ∈ (pickReadyPlayers stateOf queue).1 ∨
          id ∈ (pickReadyPlayers stateOf queue).2) := by
  intro stateOf queue
  have hcons := pickLoop_len stateOf (MAX_PULL + 1) queue [] [] 0
  simp only [List.length_nil, Nat.add_zero] at hcons
  have hready1 : ∀ id, id ∈ (pickLoop stateOf (MAX_PULL + 1) queue [] [] 0).2.1 →
      stateOf id = some "READY" := by
    intro id h
    rcases (pickLoop_ready stateOf (MAX_PULL + 1) queue [] [] 0 id).1 h with h1 | h1
    · simp at h1
    · exact h1
  have hready2 : ∀ id, id ∈ (pickLoop stateOf (MAX_PULL + 1) queue [] [] 0).2.2 →
      stateOf id = some "READY" := by
    intro id h
    rcases (pickLoop_ready stateOf (MAX_PULL + 1) queue [] [] 0 id).2 h with h1 | h1
    · simp at h1
    · exact h1
  constructor
  · rw [pickReadyPlayers_eq]
    split
    · next h =>
      dsimp only [List.length_nil]
      split
      · rw [readyCount_append, readyCount_append,
          readyCount_eq_length stateOf _ hready2,
          readyCount_eq_length stateOf _ hready1]
        omega
      · next hz =>
        rw [readyCount_append, readyCount_eq_length stateOf _ hready1]
        simp only [gt_iff_lt, not_lt, Nat.le_zero] at hz
        omega
    · next h =>
      dsimp only
      split
      · rw [readyCount_append, readyCount_eq_length stateOf _ hready2]
        omega
      · next hz =>
        simp only [gt_iff_lt, not_lt, Nat.le_zero] at hz
        omega
  · intro id hmem hr
    have hcov := pickLoop_covers stateOf (MAX_PULL + 1) queue [] [] 0 id hmem hr
    rw [pickReadyPlayers_eq]
    split
    · next h =>
      right
      rcases hcov with h1 | h1 | h1
      · refine List.mem_append.mpr (Or.inl ?_)
        split
        · exact List.mem_append.mpr (Or.inl h1)
        · exact h1
      · exact List.mem_append.mpr (Or.inr h1)
      · refine List.mem_append.mpr (Or.inl ?_)
        split
        · exact List.mem_append.mpr (Or.inr h1)
        · next hz =>
          simp only [gt_iff_lt, not_lt, Nat.le_zero, List.length_eq_zero] at hz
          rw [hz] at h1
          simp at h1
    · next h =>
      rcases hcov with h1 | h1 | h1
      · right
        split
        · exact List.mem_append.mpr (Or.inl h1)
        · exact h1
      · exact Or.inl h1
      · right
        split
        · exact List.mem_append.mpr (Or.inr h1)
        · next hz =>
          simp only [gt_iff_lt, not_lt, Nat.le_zero, List.length_eq_zero] at hz
          rw [hz] at h1
          simp at h1

set_option maxRecDepth 40000 in
/-- C3 counterexample.  The second `pickReadyPlayers` variant loses a
READY player: with 101 READY entries queued, entry "100" is popped in the
first pull of 200, the scan breaks once `picked` reaches 100, and "100"
is neither in the returned batch nor back in the queue. -/
theorem pickReadyPlayersOld_loses_ready_player :
    "100" ∈ (List.range 101).map (fun n => toString n) ∧
    (fun _ => some "READY" : StateLookup) "100" = some "READY" ∧
    "100" ∉ (pickReadyPlayersOld (fun _ => some "READY")
      ((List.range 101).map (fun n => toString n))).1 ∧
    "100" ∉ (pickReadyPlayersOld (fun _ => some "READY")
      ((List.range 101).map (fun n => toString n))).2 :=
  ⟨by decide, rfl, by decide, by decide⟩

/-- C6 (amended).  After a successful reservation, both failure paths of
the inner loop body (batch collection falling short, and an exception
thrown inside the `try` block) release the session: it is back in
`sessions:idle` with its hash reset to IDLE and its game id cleared.  No
game record is created when the collection falls short; an exception that
fires after the `createMatch` write pipeline (during the publish) leaves
the already written game record behind, the one deviation from the
claim. -/
theorem matchmaker_releases_on_failure :
    ∀ (s : MStore) (sessionId gameId : String) (durationMs now : Nat)
      (publishThrows : Bool),
      ((innerIteration s sessionId gameId durationMs now publishThrows).2 = none →
        sessionId ∈
          (innerIteration s sessionId gameId durationMs now publishThrows).1.sessionsIdle ∧
        (innerIteration s sessionId gameId durationMs now publishThrows).1.sessions.lookup
          sessionId = some ⟨"IDLE", "", now⟩) ∧
      ((pickReadyPlayers (storeStateOf s) s.queueReady).1.length ≠ BATCH_SIZE →
        (innerIteration s sessionId gameId durationMs now publishThrows).1.games =
          s.games) := by
  intro s sessionId gameId durationMs now publishThrows
  constructor
  · intro h
    rw [innerIteration_eq] at h ⊢
    by_cases h1 : (pickReadyPlayers (storeStateOf s) s.queueReady).1.length ≠ BATCH_SIZE
    · rw [if_pos h1]
      exact ⟨(release_spec _ sessionId now).1, (release_spec _ sessionId now).2.1⟩
    · rw [if_neg h1] at h ⊢
      by_cases h2 : publishThrows = true
      · rw [if_pos h2]
        exact ⟨(release_spec _ sessionId now).1, (release_spec _ sessionId now).2.1⟩
      · rw [if_neg h2] at h
        simp at h
  · intro hlen
    rw [innerIteration_eq, if_pos hlen]
    exact (release_spec _ sessionId now).2.2

set_option maxRecDepth 40000 in
/-- C6 witness: at `demoShortStore` only two players are READY, so
collection falls short, the session lands back in `sessions:idle` as
IDLE, and no game is written. -/
theorem matchmaker_releases_on_failure_witness :
    ("s1" ∈ (innerIteration demoShortStore "s1" "g1" 60000 1000 false).1.sessionsIdle ∧
      (innerIteration demoShortStore "s1" "g1" 60000 1000 false).1.sessions.lookup "s1" =
        some ⟨"IDLE", "", 1000⟩) ∧
    (innerIteration demoShortStore "s1" "g1" 60000 1000 false).1.games =
      demoShortStore.games :=
  ⟨(matchmaker_releases_on_failure demoShortStore "s1" "g1" 60000 1000 false).1 (by decide),
    (matchmaker_releases_on_failure demoShortStore "s1" "g1" 60000 1000 false).2 (by decide)⟩

set_option maxRecDepth 40000 in
/-- C6 counterexample.  At `demoStore` with an exception injected at the
`events:match_found` publish, the reservation is released but the game
record `game:g1` is present in the resulting store, against the claim
that a failed reservation creates no game record. -/
theorem publish_failure_leaves_game_record :
    (innerIteration demoStore "s1" "g1" 60000 1000 true).2 = none ∧
    "s1" ∈ (innerIteration demoStore "s1" "g1" 60000 1000 true).1.sessionsIdle ∧
    (innerIteration demoStore "s1" "g1" 60000 1000 true).1.games.lookup "g1" =
      some ⟨"s1", "RUNNING", 1000, 61000, (List.range 100).map (fun n => toString n)⟩ :=
  ⟨by decide, by decide, by decide⟩

/-- C10.  `releaseMatchmakerLock` deletes `lock:matchmaker`
unconditionally: whatever value the lock currently holds, including a PID
written by a different worker, the key is absent after the call; the
acquisition path shows the stored value is the PID that would identify
the owner. -/
theorem releaseMatchmakerLock_unconditional :
    (∀ held : Option String, releaseMatchmakerLock held = none) ∧
    (∀ pid : String, acquireMatchmakerLock pid none = (some pid, true)) ∧
    (∀ pid other : String, acquireMatchmakerLock pid (some other) = (some other, false)) :=
  ⟨fun _ => rfl, fun _ => rfl, fun _ _ => rfl⟩

end Matchmaker

namespace Gateway

/-- C4 counterexample.  A player whose record is READY when the socket
closes is written to IN_LOBBY by the close handler: the raw
`hset {state: IN_LOBBY}` has no monotone guard, against the claim that
the close write leaves READY and IN_GAME states unchanged. -/
theorem close_downgrades_ready_player :
    (closeWrite (some ⟨some "READY", some 7⟩)).state = some "IN_LOBBY" ∧
    (closeWrite (some ⟨some "READY", some 7⟩)).state ≠ some "READY" :=
  ⟨rfl, by decide⟩

/-- C4 (amended).  Only the HELLO path write is monotone: without
`force`, `setPlayerState` refreshes the heartbeat and preserves a READY
or IN_GAME state.  The `ws.on("close")` handler instead writes state
IN_LOBBY unconditionally (preserving the other hash fields), so a close
does downgrade READY and IN_GAME players. -/
theorem gateway_close_write_behavior :
    (∀ (existing : Option PlayerHash) (now : Nat),
      (existing.bind PlayerHash.state = some "READY" ∨
        existing.bind PlayerHash.state = some "IN_GAME") →
      setPlayerState existing "IN_LOBBY" false now =
        ⟨existing.bind PlayerHash.state, some now⟩) ∧
    (∀ existing : Option PlayerHash,
      (closeWrite existing).state = some "IN_LOBBY" ∧
      (closeWrite existing).heartbeatAt = existing.bind PlayerHash.heartbeatAt) := by
  constructor
  · intro existing now h
    show (if false = false ∧ (existing.bind PlayerHash.state = some "READY" ∨
        existing.bind PlayerHash.state = some "IN_GAME") then
        ({ state := existing.bind PlayerHash.state, heartbeatAt := some now } : PlayerHash)
      else { state := some "IN_LOBBY", heartbeatAt := some now }) =
      ⟨existing.bind PlayerHash.state, some now⟩
    rw [if_pos ⟨rfl, h⟩]
  · intro existing
    exact ⟨rfl, rfl⟩

/-- C4 witness: the monotone clause applied to a READY record. -/
theorem gateway_close_write_behavior_witness :
    setPlayerState (some ⟨some "READY", some 3⟩) "IN_LOBBY" false 5 =
      ⟨(some (⟨some "READY", some 3⟩ : PlayerHash)).bind PlayerHash.state, some 5⟩ ∧
    (closeWrite (some ⟨some "READY", some 3⟩)).state = some "IN_LOBBY" :=
  ⟨gateway_close_write_behavior.1 (some ⟨some "READY", some 3⟩) 5 (Or.inl rfl),
    (gateway_close_write_behavior.2 (some ⟨some "READY", some 3⟩)).1⟩

end Gateway

namespace Runner

theorem countP_middle (f : Pc → Bool) (l r : List Pc) (p : Pc) :
    (l ++ p :: r).countP f = l.countP f + r.countP f + (if f p then 1 else 0) := by
  rw [List.countP_append, List.countP_cons]
  split <;> omega

theorem countP_replicate_poll (f : Pc → Bool) (n : Nat) (hf : f Pc.poll = false) :
    (List.replicate n Pc.poll).countP f = 0 := by
  induction n with
  | zero => rfl
  | succ k ih =>
    rw [List.replicate_succ, List.countP_cons, ih, hf]
    simp

theorem finInv_start (n : Nat) : FinInv (finStart n) := by
  unfold FinInv finStart acquirers
  dsimp only
  refine ⟨?_, ?_, ?_⟩
  · rw [countP_replicate_poll isPastLock n rfl]
    simp
  · rw [countP_replicate_poll pastMark n rfl]
  · rw [countP_replicate_poll pastPublish n rfl]

theorem finInv_step {s s' : FinState} (hinv : FinInv s) (hstep : FinStep s s') :
    FinInv s' := by
  obtain ⟨h1, h2, h3⟩ := hinv
  unfold FinInv acquirers at *
  cases hstep with
  | @pollRunning l r hr hf =>
    rw [hr] at h1 h2 h3
    simp only [countP_middle, isPastLock, pastMark, pastPublish] at h1 h2 h3 ⊢
    refine ⟨?_, ?_, ?_⟩ <;> simp_all
  | @pollFinished l r hr hf =>
    rw [hr] at h1 h2 h3
    simp only [countP_middle, isPastLock, pastMark, pastPublish] at h1 h2 h3 ⊢
    refine ⟨?_, ?_, ?_⟩ <;> simp_all
  | @lockOk l r hr hl =>
    rw [hr] at h1 h2 h3
    rw [hl] at h1
    simp only [countP_middle, isPastLock, pastMark, pastPublish] at h1 h2 h3 ⊢
    refine ⟨?_, ?_, ?_⟩ <;> simp_all
  | @lockBusy l r hr hl =>
    rw [hr] at h1 h2 h3
    simp only [countP_middle, isPastLock, pastMark, pastPublish] at h1 h2 h3 ⊢
    refine ⟨?_, ?_, ?_⟩ <;> simp_all
  | @markFinished l r hr =>
    rw [hr] at h1 h2 h3
    simp only [countP_middle, isPastLock, pastMark, pastPublish] at h1 h2 h3 ⊢
    refine ⟨?_, ?_, ?_⟩ <;> simp_all
  | @publishEnded l r hr =>
    rw [hr] at h1 h2 h3
    simp only [countP_middle, isPastLock, pastMark, pastPublish] at h1 h2 h3 ⊢
    refine ⟨?_, ?_, ?_⟩ <;> simp_all

theorem finInv_reachable (n : Nat) (s : FinState)
    (h : Relation.ReflTransGen FinStep (finStart n) s) : FinInv s := by
  induction h with
  | refl => exact finInv_start n
  | tail _ hstep ih => exact finInv_step ih hstep

theorem countP_le_of_imp (l : List Pc) (f g : Pc → Bool)
    (h : ∀ p, f p = true → g p = true) : l.countP f ≤ l.countP g := by
  induction l with
  | nil => simp
  | cons a t ih =>
    rw [List.countP_cons, List.countP_cons]
    by_cases ha : f a = true
    · rw [ha, h a ha]; omega
    · have : (if f a = true then 1 else 0) = 0 := by simp [ha]
      rw [this]
      split <;> omega

/-- C2.  In the finish protocol, a runner finalizes only after winning
the set-if-absent `lock:finish:{game_id}`, and a runner that reads
FINISHED drops the game; in every execution of any number of runners
(interleaved at store-call granularity, the lock outliving the short
critical section as its 5 second TTL guarantees), at most one FINISHED
write and at most one `events:match_ended` publish ever happen. -/
theorem game_finished_at_most_once (n : Nat) (s : FinState)
    (h : Relation.ReflTransGen FinStep (finStart n) s) :
    s.finishWrites ≤ 1 ∧ s.published ≤ 1 := by
  obtain ⟨h1, h2, h3⟩ := finInv_reachable n s h
  have hm : s.runners.countP pastMark ≤ s.runners.countP isPastLock := by
    apply countP_le_of_imp
    intro p hp
    cases p <;> simp_all [pastMark, isPastLock]
  have hp : s.runners.countP pastPublish ≤ s.runners.countP pastMark := by
    apply countP_le_of_imp
    intro p hp
    cases p <;> simp_all [pastPublish, pastMark]
  unfold acquirers at h1
  constructor
  · rw [h2]
    calc s.runners.countP pastMark ≤ s.runners.countP isPastLock := hm
    _ = (if s.lockTaken then 1 else 0) := h1
    _ ≤ 1 := by split <;> omega
  · rw [h3]
    calc s.runners.countP pastPublish ≤ s.runners.countP pastMark := hp
    _ ≤ s.runners.countP isPastLock := hm
    _ = (if s.lockTaken then 1 else 0) := h1
    _ ≤ 1 := by split <;> omega

/-- C2 witness: an explicit two-runner execution in which runner one
polls, wins the lock, marks the game FINISHED and publishes, and runner
two then reads FINISHED and drops the game. -/
theorem game_finished_at_most_once_witness :
    (⟨true, true, 1, 1, [Pc.done, Pc.dropped]⟩ : FinState).finishWrites ≤ 1 ∧
    (⟨true, true, 1, 1, [Pc.done, Pc.dropped]⟩ : FinState).published ≤ 1 :=
  game_finished_at_most_once 2 ⟨true, true, 1, 1, [Pc.done, Pc.dropped]⟩
    (Relation.ReflTransGen.tail
      (Relation.ReflTransGen.tail
        (Relation.ReflTransGen.tail
          (Relation.ReflTransGen.tail
            (Relation.ReflTransGen.tail
              (Relation.ReflTransGen.refl)
              (@FinStep.pollRunning ⟨false, false, 0, 0, [Pc.poll, Pc.poll]⟩
                [] [Pc.poll] rfl rfl))
            (@FinStep.lockOk ⟨false, false, 0, 0, [Pc.tryLock, Pc.poll]⟩
              [] [Pc.poll] rfl rfl))
          (@FinStep.markFinished ⟨false, true, 0, 0, [Pc.mark, Pc.poll]⟩
            [] [Pc.poll] rfl))
        (@FinStep.publishEnded ⟨true, true, 1, 0, [Pc.publish, Pc.poll]⟩
          [] [Pc.poll] rfl))
      (@FinStep.pollFinished ⟨true, true, 1, 1, [Pc.done, Pc.poll]⟩
        [Pc.done] [] rfl rfl))

end Runner

namespace Slots

/-- C5 (amended).  After any completed `updateAvailability` by the
session runner, the written hash and index are consistent: `active_games`
equals the runner-local game count, the session is a member of
`sessions:available` exactly when `max_slots - active_games` is positive,
and in that case the score is exactly `max_slots - active_games`.  The
claimed global bound `active_games ≤ max_slots` does not hold under
concurrent reservations (see the counterexample trace). -/
theorem updAvail_membership_score :
    ∀ s : St,
      (updAvail s).active = s.tracked.length ∧
      (updAvail s).member = decide (0 < (s.maxSlots : Int) - (updAvail s).active) ∧
      ((updAvail s).score : Int) =
        if 0 < (s.maxSlots : Int) - (updAvail s).active then
          (s.maxSlots : Int) - (updAvail s).active
        else 0 := by
  intro s
  refine ⟨rfl, rfl, ?_⟩
  show (((if 0 < (s.maxSlots : Int) - s.tracked.length then
      ((s.maxSlots : Int) - s.tracked.length).toNat else 0) : Nat) : Int) =
    if 0 < (s.maxSlots : Int) - s.tracked.length then
      (s.maxSlots : Int) - s.tracked.length
    else 0
  split
  · next h => rw [Int.toNat_of_nonneg (le_of_lt h)]
  · rfl

set_option maxRecDepth 10000 in
/-- C5 counterexample.  An interleaving of the runner and the
spec-modelled matchmaker drives `active_games` above `max_slots` on a
one-slot session: reserve gA; the runner availability update overwrites
the reservation accounting; reserve gB; release gA restores the
pre-reservation score; gB and a further gC both materialize and are
adopted; the next availability update writes `active_games = 2` with
`max_slots = 1`. -/
theorem slot_accounting_overflow :
    runTrace (blankSt 1)
      [Act.updAvail, Act.reserve "gA", Act.updAvail, Act.reserve "gB",
       Act.release "gA", Act.materialize "gB", Act.adopt "gB",
       Act.reserve "gC", Act.materialize "gC", Act.adopt "gC", Act.updAvail] =
      some ⟨1, 2, ["gC", "gB"], false, 0, ["gC", "gB"], ["gC", "gB"], []⟩ ∧
    (⟨1, 2, ["gC", "gB"], false, 0, ["gC", "gB"], ["gC", "gB"], []⟩ : St).maxSlots <
      (⟨1, 2, ["gC", "gB"], false, 0, ["gC", "gB"], ["gC", "gB"], []⟩ : St).active :=
  ⟨by decide, by decide⟩

end Slots

namespace Autoscaler

theorem map_upsert_keys {α : Type} (l : List (String × α)) (k0 : String) (v : α)
    (k : String) (h : k ∈ l.map Prod.fst) :
    k ∈ (l.map (fun p => if p.1 = k0 then (k0, v) else p)).map Prod.fst := by
  induction l with
  | nil => simp at h
  | cons a t ih =>
    simp only [List.map_cons, List.mem_cons] at h ⊢
    rcases h with h | h
    · subst h
      by_cases ha : a.1 = k0
      · left; rw [if_pos ha]; exact ha
      · left; rw [if_neg ha]
    · right; exact ih h

theorem upsert_keys {α : Type} (l : List (String × α)) (k0 : String) (v : α)
    (k : String) (h : k ∈ l.map Prod.fst) :
    k ∈ (Matchmaker.upsert l k0 v).map Prod.fst := by
  unfold Matchmaker.upsert
  split
  · exact map_upsert_keys l k0 v k h
  · rw [List.map_append]
    exact List.mem_append.mpr (Or.inl h)

theorem foldl_applyCreate_keys (vmids : List Nat) :
    ∀ (st : AStore) (k : String), k ∈ st.sessions.map Prod.fst →
      k ∈ (vmids.foldl applyCreate st).sessions.map Prod.fst := by
  induction vmids with
  | nil => intro st k h; exact h
  | cons v rest ih =>
    intro st k h
    exact ih _ k (upsert_keys _ _ _ k h)

theorem scaleUp_keys (needed : Nat) (containers : List Container) (st : AStore)
    (now : Nat) (t : Timers) (k : String) (h : k ∈ st.sessions.map Prod.fst) :
    k ∈ (scaleUp needed containers st now t).2.1.sessions.map Prod.fst := by
  unfold scaleUp
  split
  · exact h
  · dsimp only
    split
    · exact h
    · exact foldl_applyCreate_keys _ st k h

theorem scaleDown_no_containers (excess : Nat) (st : AStore) (now : Nat) (t : Timers) :
    (scaleDown excess [] st now t).1 = [] ∧ (scaleDown excess [] st now t).2.1 = st := by
  unfold scaleDown
  split
  · exact ⟨rfl, rfl⟩
  · split
    · exact ⟨rfl, rfl⟩
    · dsimp only
      rw [if_pos (by simp [minSessions])]
      exact ⟨rfl, rfl⟩

theorem reconcile_empty_list (st : AStore) : reconcileSessions [] st = st := rfl

theorem utilizationBranch_no_containers (m : Metrics) (st : AStore) (now : Nat)
    (t : Timers) :
    (utilizationBranch m [] st now t).destroyed = [] ∧
    ∀ k, k ∈ st.sessions.map Prod.fst →
      k ∈ (utilizationBranch m [] st now t).store.sessions.map Prod.fst := by
  unfold utilizationBranch
  split
  · dsimp only
    split
    · exact ⟨rfl, fun k h => scaleUp_keys _ _ _ _ _ k h⟩
    · exact ⟨rfl, fun k h => h⟩
  · split
    · dsimp only
      split
      · constructor
        · exact (scaleDown_no_containers _ _ _ _).1
        · intro k h
          rw [(scaleDown_no_containers _ _ _ _).2]
          exact h
      · exact ⟨rfl, fun k h => h⟩
    · exact ⟨rfl, fun k h => h⟩

theorem checkAndScaleBody_no_containers (m : Metrics) (st : AStore) (now : Nat)
    (t : Timers) :
    (checkAndScaleBody m [] st now t).destroyed = [] ∧
    ∀ k, k ∈ st.sessions.map Prod.fst →
      k ∈ (checkAndScaleBody m [] st now t).store.sessions.map Prod.fst := by
  unfold checkAndScaleBody
  split
  · split
    · exact ⟨rfl, fun k h => scaleUp_keys _ _ _ _ _ k h⟩
    · exact utilizationBranch_no_containers m st now t
  · exact utilizationBranch_no_containers m st now t

/-- C8.  When the backend `list()` returns no runners, reconciliation is
a no-op on the store (the outage guard), and the whole autoscaler tick
removes no `session:*` key: the destroyed set is empty and every session
key present before the tick is present after it. -/
theorem empty_backend_list_no_deletions :
    (∀ st : AStore, reconcileSessions [] st = st) ∧
    (∀ (st : AStore) (now : Nat) (t : Timers),
      (checkAndScale [] st now t).destroyed = [] ∧
      ∀ k, k ∈ st.sessions.map Prod.fst →
        k ∈ (checkAndScale [] st now t).store.sessions.map Prod.fst) := by
  refine ⟨reconcile_empty_list, ?_⟩
  intro st now t
  show (checkAndScaleBody (getScalingMetrics (reconcileSessions [] st)) [] (reconcileSessions [] st) now t).destroyed = [] ∧ _
  rw [reconcile_empty_list st]
  exact checkAndScaleBody_no_containers _ st now t

/-- C8 witness: the tick over a one-session store with an empty backend
listing keeps the session key. -/
theorem empty_backend_list_no_deletions_witness :
    (checkAndScale [] busySession214Store 300200 elapsedLowUsageTimers).destroyed = [] ∧
    "session-214" ∈
      (checkAndScale [] busySession214Store 300200 elapsedLowUsageTimers).store.sessions.map
        Prod.fst :=
  ⟨(empty_backend_list_no_deletions.2 busySession214Store 300200 elapsedLowUsageTimers).1,
    (empty_backend_list_no_deletions.2 busySession214Store 300200 elapsedLowUsageTimers).2
      "session-214" (by decide)⟩

end Autoscaler

namespace Autoscaler

theorem additionalNeeded_pos (m : Metrics) (h1 : playersPerSession ≤ m.queueLength)
    (h3 : m.totalSessions < maxSessions) : 0 < additionalNeeded m := by
  unfold additionalNeeded
  refine lt_min ?_ ?_
  · unfold ceilDiv playersPerSession slotsPerSession
    unfold playersPerSession at h1
    have hq : 1 ≤ (m.queueLength + 100 - 1) / 100 := by
      rw [Nat.le_div_iff_mul_le (by norm_num)]
      omega
    rw [Nat.lt_iff_add_one_le, Nat.le_div_iff_mul_le (by norm_num)]
    omega
  · omega

/-- C7 (amended).  In a tick with `queue_length ≥ players_per_game`,
`available_slots = 0` and `total_sessions < max_sessions`, the starvation
branch does fire and delegates to `scaleUp` with the sessions needed to
cover the queue — but `scaleUp` itself still enforces the 30 second
scale-up cooldown (and the per-tick batch cap), so inside the cooldown
the branch creates nothing; the claim that the cooldown is bypassed does
not hold. -/
theorem starvation_scale_up_subject_to_cooldown :
    ∀ (m : Metrics) (containers : List Container) (st : AStore) (now : Nat) (t : Timers),
      playersPerSession ≤ m.queueLength → m.availableSlots = 0 →
      m.totalSessions < maxSessions →
      checkAndScaleBody m containers st now t =
        ⟨(scaleUp (additionalNeeded m) containers st now t).1, [],
          (scaleUp (additionalNeeded m) containers st now t).2.1,
          (scaleUp (additionalNeeded m) containers st now t).2.2⟩ ∧
      (now - t.lastScaleUp < scaleUpCooldown →
        (scaleUp (additionalNeeded m) containers st now t).1 = [] ∧
        (scaleUp (additionalNeeded m) containers st now t).2.1 = st ∧
        (scaleUp (additionalNeeded m) containers st now t).2.2 = t) := by
  intro m containers st now t h1 h2 h3
  constructor
  · unfold checkAndScaleBody
    rw [if_pos ⟨h1, h2, h3⟩, if_pos (additionalNeeded_pos m h1 h3)]
  · intro hcool
    unfold scaleUp
    rw [if_pos hcool]
    exact ⟨rfl, rfl, rfl⟩

set_option maxRecDepth 10000 in
/-- C7 witness: the amended statement applied to the concrete starved
sample inside the cooldown window. -/
theorem starvation_scale_up_subject_to_cooldown_witness :
    (checkAndScaleBody starvedMetrics fiveContainers starvedStore 100000
        recentScaleUpTimers =
      ⟨(scaleUp (additionalNeeded starvedMetrics) fiveContainers starvedStore 100000
          recentScaleUpTimers).1, [],
        (scaleUp (additionalNeeded starvedMetrics) fiveContainers starvedStore 100000
          recentScaleUpTimers).2.1,
        (scaleUp (additionalNeeded starvedMetrics) fiveContainers starvedStore 100000
          recentScaleUpTimers).2.2⟩) ∧
    (scaleUp (additionalNeeded starvedMetrics) fiveContainers starvedStore 100000
      recentScaleUpTimers).1 = [] ∧
    (scaleUp (additionalNeeded starvedMetrics) fiveContainers starvedStore 100000
      recentScaleUpTimers).2.1 = starvedStore ∧
    (scaleUp (additionalNeeded starvedMetrics) fiveContainers starvedStore 100000
      recentScaleUpTimers).2.2 = recentScaleUpTimers :=
  ⟨(starvation_scale_up_subject_to_cooldown starvedMetrics fiveContainers starvedStore
      100000 recentScaleUpTimers (by decide) (by decide) (by decide)).1,
    (starvation_scale_up_subject_to_cooldown starvedMetrics fiveContainers starvedStore
      100000 recentScaleUpTimers (by decide) (by decide) (by decide)).2 (by decide)⟩

set_option maxRecDepth 10000 in
/-- C7 counterexample.  One second after a scale-up, with 100 players
queued, zero available slots and five of three hundred sessions, the
starvation tick creates nothing and leaves the timers untouched: the
cooldown suppresses the starvation override. -/
theorem starvation_override_blocked_by_cooldown :
    playersPerSession ≤ starvedMetrics.queueLength ∧
    starvedMetrics.availableSlots = 0 ∧
    starvedMetrics.totalSessions < maxSessions ∧
    (checkAndScaleBody starvedMetrics fiveContainers starvedStore 100000
      recentScaleUpTimers).created = [] ∧
    (checkAndScaleBody starvedMetrics fiveContainers starvedStore 100000
      recentScaleUpTimers).timers = recentScaleUpTimers :=
  ⟨by decide, by decide, by decide, by decide, by decide⟩

end Autoscaler

namespace Autoscaler

theorem mem_insertDesc (c x : Container) (l : List Container) :
    x ∈ insertDesc c l ↔ x = c ∨ x ∈ l := by
  induction l with
  | nil => simp [insertDesc]
  | cons d rest ih =>
    unfold insertDesc
    split
    · simp only [List.mem_cons]
    · simp only [List.mem_cons, ih]
      tauto

theorem mem_sortDesc (x : Container) (l : List Container) :
    x ∈ sortDesc l ↔ x ∈ l := by
  induction l with
  | nil => simp [sortDesc]
  | cons d rest ih =>
    show x ∈ insertDesc d (sortDesc rest) ↔ _
    rw [mem_insertDesc, ih, List.mem_cons]

theorem insertDesc_head (c : Container) (l : List Container) :
    (insertDesc c l).head? = some c ∨ (insertDesc c l).head? = l.head? := by
  cases l with
  | nil => left; rfl
  | cons d rest =>
    unfold insertDesc
    split
    · left; rfl
    · right; rfl

theorem insertDesc_sorted (c : Container) (l : List Container)
    (h : List.Chain' (fun a b => b.vmid ≤ a.vmid) l) :
    List.Chain' (fun a b => b.vmid ≤ a.vmid) (insertDesc c l) := by
  induction l with
  | nil => simp [insertDesc]
  | cons d rest ih =>
    rw [List.chain'_cons'] at h
    unfold insertDesc
    split
    · next hd =>
      rw [List.chain'_cons']
      refine ⟨?_, List.chain'_cons'.mpr h⟩
      intro b hb
      simp only [List.head?_cons, Option.mem_def, Option.some.injEq] at hb
      subst hb
      exact hd
    · next hd =>
      rw [List.chain'_cons']
      refine ⟨?_, ih h.2⟩
      intro b hb
      rcases insertDesc_head c rest with hh | hh
      · rw [hh] at hb
        simp only [Option.mem_def, Option.some.injEq] at hb
        subst hb
        omega
      · rw [hh] at hb
        exact h.1 b hb

theorem sortDesc_sorted (l : List Container) :
    List.Chain' (fun a b => b.vmid ≤ a.vmid) (sortDesc l) := by
  induction l with
  | nil => simp [sortDesc]
  | cons d rest ih => exact insertDesc_sorted d (sortDesc rest) ih

theorem chain_take {R : Container → Container → Prop} :
    ∀ (n : Nat) (l : List Container), List.Chain' R l → List.Chain' R (l.take n) := by
  intro n
  induction n with
  | zero => intro l h; simp
  | succ k ih =>
    intro l h
    cases l with
    | nil => simp
    | cons a t =>
      rw [List.take_succ_cons]
      rw [List.chain'_cons'] at h ⊢
      refine ⟨?_, ih t h.2⟩
      intro b hb
      apply h.1
      cases t with
      | nil => simp at hb
      | cons c t2 =>
        cases k with
        | zero => simp at hb
        | succ k2 =>
          rw [List.take_succ_cons] at hb
          simpa using hb

/-- C9 (amended).  `scaleDown` destroys containers only in a tick whose
low-usage timer was started earlier and has run for at least
`scale_down_cooldown`; it removes at most `min excess (total -
min_sessions)` containers per tick — the configured `scale_down_batch`
of 3 is defined but never applied; every destroyed VMID belongs to a
container whose session hash `state` field is IDLE or missing (the
`active_games` field is not consulted); and the destroyed VMIDs are in
descending order, highest first. -/
theorem scaleDown_behavior :
    ∀ (excess : Nat) (containers : List Container) (st : AStore) (now : Nat) (t : Timers),
      ((t.lowUsageSince = 0 ∨ now - t.lowUsageSince < scaleDownCooldown) →
        (scaleDown excess containers st now t).1 = []) ∧
      ((scaleDown excess containers st now t).1.length ≤
        (min (excess : Int) ((containers.length : Int) - minSessions)).toNat) ∧
      (∀ v, v ∈ (scaleDown excess containers st now t).1 →
        ∃ c, c ∈ containers ∧ c.vmid = v ∧ idleByState st c = true) ∧
      List.Chain' (fun a b => b ≤ a) (scaleDown excess containers st now t).1 := by
  intro excess containers st now t
  unfold scaleDown
  split
  · next h0 =>
    refine ⟨fun _ => rfl, by simp, by simp, by simp⟩
  · next h0 =>
    split
    · next hcool =>
      refine ⟨fun _ => rfl, by simp, by simp, by simp⟩
    · next hcool =>
      dsimp only
      split
      · next hneg =>
        refine ⟨fun _ => rfl, by simp, by simp, by simp⟩
      · next hneg =>
        refine ⟨?_, ?_, ?_, ?_⟩
        · intro h
          rcases h with h | h
          · exact absurd h h0
          · exact absurd h hcool
        · rw [List.length_map, List.length_take]
          exact le_trans (min_le_left _ _) (le_refl _)
        · intro v hv
          rcases List.mem_map.mp hv with ⟨c, hc, hcv⟩
          have hc2 : c ∈ sortDesc (containers.filter (idleByState st)) :=
            List.take_subset _ _ hc
          have hc3 : c ∈ containers.filter (idleByState st) :=
            (mem_sortDesc c _).mp hc2
          rcases List.mem_filter.mp hc3 with ⟨hmem, hidle⟩
          exact ⟨c, hmem, hcv, hidle⟩
        · rw [List.chain'_map]
          exact chain_take _ _ (sortDesc_sorted _)

set_option maxRecDepth 10000 in
/-- C9 witness: a tick with a fresh timer destroys nothing, and the
destroyed VMIDs of an elapsed-timer tick are descending. -/
theorem scaleDown_behavior_witness :
    (scaleDown 5 fifteenContainers busySession214Store 300200 ⟨0, 0, 0⟩).1 = [] ∧
    List.Chain' (fun a b => b ≤ a)
      (scaleDown 5 fifteenContainers busySession214Store 300200 elapsedLowUsageTimers).1 :=
  ⟨(scaleDown_behavior 5 fifteenContainers busySession214Store 300200 ⟨0, 0, 0⟩).1
      (Or.inl rfl),
    (scaleDown_behavior 5 fifteenContainers busySession214Store 300200
      elapsedLowUsageTimers).2.2.2⟩

set_option maxRecDepth 10000 in
/-- C9 counterexample.  With 15 containers, `excess = 5` and an elapsed
low-usage timer, one tick destroys five containers — above the
configured `scale_down_batch` of 3 — and among them VMID 214, whose
session hash shows three active games (its `state` field is merely
missing), against the claim that only idle runners are destroyed and at
most three per tick. -/
theorem scale_down_ignores_batch_cap_and_activity :
    (scaleDown 5 fifteenContainers busySession214Store 300200 elapsedLowUsageTimers).1 =
      [214, 213, 212, 211, 210] ∧
    ¬((scaleDown 5 fifteenContainers busySession214Store 300200
        elapsedLowUsageTimers).1.length ≤ scaleDownBatchSize) ∧
    214 ∈ (scaleDown 5 fifteenContainers busySession214Store 300200
      elapsedLowUsageTimers).1 ∧
    busySession214Store.sessions.lookup "session-214" = some ⟨none, none, some 3, none⟩ :=
  ⟨by decide, by decide, by decide, by decide⟩

end Autoscaler

namespace Matchmaker

set_option maxRecDepth 10000 in
/-- C3 witness: the conservation and coverage clauses applied to a
two-entry READY queue. -/
theorem pickReadyPlayers_queue_safety_witness :
    (readyCount (fun _ => some "READY")
        (pickReadyPlayers (fun _ => some "READY") ["a", "b"]).2 +
      (pickReadyPlayers (fun _ => some "READY") ["a", "b"]).1.length =
      readyCount (fun _ => some "READY") ["a", "b"]) ∧
    ("a" ∈ (pickReadyPlayers (fun _ => some "READY") ["a", "b"]).1 ∨
      "a" ∈ (pickReadyPlayers (fun _ => some "READY") ["a", "b"]).2) :=
  ⟨(pickReadyPlayers_queue_safety (fun _ => some "READY") ["a", "b"]).1,
    (pickReadyPlayers_queue_safety (fun _ => some "READY") ["a", "b"]).2 "a"
      (by decide) rfl⟩

end Matchmaker
